import Mathlib

/-!
Verification of `src/bili_cover_getter.py`.

The script exposes one function, `get_bilibili_cover(video_url)`, which
issues an HTTP GET for the video page, parses the body with BeautifulSoup,
looks up the first `<meta property="og:image" content="...">` element,
normalizes the content value (prefixing `https:` when it is
protocol-relative, then applying `re.sub(r'@.*', '', url)`), and returns
the resulting string; every failure path returns `None`.  The `__main__`
block calls the function on a hardcoded URL and prints the result when it
is truthy.

The embedding below models the outcome of the network request and the
parsed document explicitly and translates the function body line by line.
-/

/-- An HTML element as the extractor sees it: the tag name together with
the two attributes the code reads (`property` and `content`); a missing
attribute is `none`. -/
structure Tag where
  name : String
  property : Option String
  content : Option String
  deriving DecidableEq, Repr

/-- Outcome of `requests.get(video_url, headers=headers, timeout=10)`:
either the request raises a `requests.exceptions.RequestException`
(connection failure, DNS failure, timeout, ...), or it yields a response
carrying an HTTP status code and a body whose parsed form is the list of
elements in document order. -/
inductive FetchOutcome where
  | requestError (msg : String)
  | response (status : Nat) (soup : List Tag)
  deriving DecidableEq, Repr

/-- The exception kind the `try` block of `get_bilibili_cover` can raise:
`requests.exceptions.RequestException` (which `requests.get` raises on
network errors and `raise_for_status` raises as `HTTPError`). -/
inductive PyError where
  | requestException (msg : String)
  deriving DecidableEq, Repr

/-- `response.raise_for_status()`: raises an `HTTPError` (a subclass of
`RequestException`) exactly when the status code is in 400..599, and
returns normally otherwise. -/
def raise_for_status (status : Nat) : Except PyError Unit :=
  if 400 ≤ status ∧ status < 600 then
    Except.error (PyError.requestException "HTTPError")
  else
    Except.ok ()

/-- `soup.find('meta', property='og:image')`: the first element in
document order whose tag name is `meta` and whose `property` attribute
equals `og:image`, or `none` when there is no such element. -/
def find_og_image (soup : List Tag) : Option Tag :=
  soup.find? fun t => t.name == "meta" && t.property == some "og:image"

mutual

/-- Character-level model of `re.sub(r'@.*', '', s)` on `s.data`.  The
regex engine scans left to right; at a `'@'` it matches `@` followed by
every character up to (but excluding) the next newline — in Python, `.`
does not match `'\n'` — and replaces the match with the empty string;
every other character is copied. -/
def subAtStar : List Char → List Char
  | [] => []
  | c :: rest => if c = '@' then skipAtMatch rest else c :: subAtStar rest

/-- Helper for `subAtStar`: consumes the `.*` part of a match of `@.*`,
discarding characters until the next newline (which ends the match and is
itself copied by the resumed scan) or the end of the string. -/
def skipAtMatch : List Char → List Char
  | [] => []
  | c :: rest => if c = '\n' then c :: subAtStar rest else skipAtMatch rest

end

/-- `re.sub(r'@.*', '', s)` as a function on `String`. -/
def re_sub_at_dot_star (s : String) : String :=
  ⟨subAtStar s.data⟩

/-- Python's `s.startswith(pre)`: `pre` is a prefix of `s`. -/
def py_startswith (s pre : String) : Bool :=
  pre.data.isPrefixOf s.data

/-- The body of the `try:` block of `get_bilibili_cover`, given the
outcome of the request.  It raises (returns `Except.error`) exactly when
`requests.get` or `response.raise_for_status()` raises; otherwise it
mirrors the Python control flow: if the matching meta tag exists and its
`content` attribute is present and truthy (non-empty), prefix `https:`
when the value starts with `//`, strip the `@...` suffix, and return the
string; in every other case return `None`. -/
def get_bilibili_cover_body (outcome : FetchOutcome) :
    Except PyError (Option String) :=
  match outcome with
  | FetchOutcome.requestError msg =>
    Except.error (PyError.requestException msg)
  | FetchOutcome.response status soup =>
    match raise_for_status status with
    | Except.error e => Except.error e
    | Except.ok _ =>
      match find_og_image soup with
      | some meta_tag =>
        match meta_tag.content with
        | some c =>
          if c ≠ "" then
            let cover_url := if py_startswith c "//" then "https:" ++ c else c
            Except.ok (some (re_sub_at_dot_star cover_url))
          else
            Except.ok none
        | none => Except.ok none
      | none => Except.ok none

/-- `get_bilibili_cover` with its top-level exception handlers: the
`except requests.exceptions.RequestException` and `except Exception`
clauses both print a message and return `None`, so every exception the
body raises becomes the absent value. -/
def get_bilibili_cover (outcome : FetchOutcome) : Option String :=
  match get_bilibili_cover_body outcome with
  | Except.ok r => r
  | Except.error _ => none

/-- The `__main__` block: call `get_bilibili_cover` on the hardcoded URL
and, when the result is truthy (a non-empty string), print a banner line
and the URL.  The script never calls `sys.exit`, so it terminates with
exit code `0` in every case; the pair returned here is (lines printed by
the block, exit code). -/
def main_block (outcome : FetchOutcome) : List String × Nat :=
  match get_bilibili_cover outcome with
  | some url =>
    if url = "" then ([], 0)
    else (["\nSuccessfully got the cover URL:", url], 0)
  | none => ([], 0)

/-! Helper lemmas shared by the claim theorems. -/

lemma get_bilibili_cover_of_ok {o : FetchOutcome} {r : Option String}
    (h : get_bilibili_cover_body o = Except.ok r) :
    get_bilibili_cover o = r := by
  simp [get_bilibili_cover, h]

lemma get_bilibili_cover_of_error {o : FetchOutcome} {e : PyError}
    (h : get_bilibili_cover_body o = Except.error e) :
    get_bilibili_cover o = none := by
  simp [get_bilibili_cover, h]

lemma raise_for_status_ok {status : Nat}
    (hs : ¬ (400 ≤ status ∧ status < 600)) :
    raise_for_status status = Except.ok () := by
  simp [raise_for_status, hs]

lemma body_response_extract {status : Nat} {soup : List Tag} {t : Tag}
    {c : String}
    (hs : ¬ (400 ≤ status ∧ status < 600))
    (hf : find_og_image soup = some t) (hc : t.content = some c)
    (hne : c ≠ "") :
    get_bilibili_cover_body (FetchOutcome.response status soup)
      = Except.ok (some (re_sub_at_dot_star
          (if py_startswith c "//" then "https:" ++ c else c))) := by
  simp [get_bilibili_cover_body, raise_for_status_ok hs, hf, hc, hne]

lemma find_og_image_pred (t : Tag) :
    (t.name == "meta" && t.property == some "og:image") = true ↔
      t.name = "meta" ∧ t.property = some "og:image" := by
  simp [Bool.and_eq_true]

lemma find_og_image_append {pre post : List Tag} {t : Tag}
    (hpre : ∀ u ∈ pre, ¬ (u.name = "meta" ∧ u.property = some "og:image"))
    (ht : t.name = "meta") (hp : t.property = some "og:image") :
    find_og_image (pre ++ t :: post) = some t := by
  induction pre with
  | nil =>
    have hpt : (t.name == "meta" && t.property == some "og:image") = true :=
      (find_og_image_pred t).mpr ⟨ht, hp⟩
    simp [find_og_image, List.find?_cons, hpt]
  | cons u us ih =>
    have hu := hpre u (List.mem_cons_self u us)
    have hpu : (u.name == "meta" && u.property == some "og:image") = false := by
      rw [Bool.eq_false_iff]
      intro hb
      exact hu ((find_og_image_pred u).mp hb)
    have ihr := ih fun v hv => hpre v (List.mem_cons_of_mem u hv)
    simp only [find_og_image, List.cons_append, List.find?_cons, hpu]
    exact ihr

lemma subAtStar_skipAtMatch_no_at :
    ∀ n : Nat, ∀ l : List Char, l.length ≤ n →
      '@' ∉ subAtStar l ∧ '@' ∉ skipAtMatch l := by
  intro n
  induction n with
  | zero =>
    intro l hl
    have hnil : l = [] := List.length_eq_zero.mp (Nat.le_zero.mp hl)
    subst hnil
    simp [subAtStar, skipAtMatch]
  | succ n ih =>
    intro l hl
    cases l with
    | nil => simp [subAtStar, skipAtMatch]
    | cons c rest =>
      have hr : rest.length ≤ n := Nat.le_of_succ_le_succ hl
      have ihr := ih rest hr
      constructor
      · by_cases hc : c = '@'
        · simpa [subAtStar, hc] using ihr.2
        · simp only [subAtStar, if_neg hc, List.mem_cons, not_or]
          exact ⟨fun h => hc h.symm, ihr.1⟩
      · by_cases hc : c = '\n'
        · simp only [skipAtMatch, if_pos hc, List.mem_cons, not_or]
          exact ⟨by simp [hc], ihr.1⟩
        · simpa [skipAtMatch, hc] using ihr.2

lemma re_sub_at_dot_star_no_at (s : String) :
    '@' ∉ (re_sub_at_dot_star s).data :=
  (subAtStar_skipAtMatch_no_at s.data.length s.data (Nat.le_refl _)).1

lemma skipAtMatch_eq_nil {l : List Char} (h : '\n' ∉ l) :
    skipAtMatch l = [] := by
  induction l with
  | nil => rfl
  | cons c rest ih =>
    have hc : ¬ c = '\n' := fun hh => h (by simp [hh])
    rw [skipAtMatch, if_neg hc]
    exact ih fun hm => h (List.mem_cons_of_mem _ hm)

lemma subAtStar_eq_takeWhile {l : List Char} (h : '\n' ∉ l) :
    subAtStar l = l.takeWhile (fun c => c != '@') := by
  induction l with
  | nil => rfl
  | cons c rest ih =>
    have hrest : '\n' ∉ rest := fun hm => h (List.mem_cons_of_mem _ hm)
    by_cases hc : c = '@'
    · subst hc
      simp only [subAtStar, if_pos rfl, List.takeWhile_cons]
      simp [skipAtMatch_eq_nil hrest]
    · rw [subAtStar, if_neg hc, List.takeWhile_cons]
      simp only [bne_iff_ne, ne_eq, hc, not_false_iff, if_true]
      simp [hc, ih hrest]

lemma get_bilibili_cover_some_shape {o : FetchOutcome} {s : String}
    (h : get_bilibili_cover o = some s) :
    ∃ u, s = re_sub_at_dot_star u := by
  cases o with
  | requestError msg =>
    simp [get_bilibili_cover, get_bilibili_cover_body] at h
  | response status soup =>
    by_cases hs : 400 ≤ status ∧ status < 600
    · simp [get_bilibili_cover, get_bilibili_cover_body, raise_for_status,
        hs] at h
    · cases hf : find_og_image soup with
      | none =>
        simp [get_bilibili_cover, get_bilibili_cover_body,
          raise_for_status_ok hs, hf] at h
      | some t =>
        cases hc : t.content with
        | none =>
          simp [get_bilibili_cover, get_bilibili_cover_body,
            raise_for_status_ok hs, hf, hc] at h
        | some c =>
          by_cases hne : c = ""
          · simp [get_bilibili_cover, get_bilibili_cover_body,
              raise_for_status_ok hs, hf, hc, hne] at h
          · rw [get_bilibili_cover_of_ok
              (body_response_extract hs hf hc hne)] at h
            exact ⟨_, (Option.some.inj h).symm⟩

/-! Claim theorems. -/

/-- C1: for a fetched page whose HTML contains the meta element
`<meta property="og:image" content="https://i0.hdslb.com/cover.jpg@672w_378h.jpg">`
(the element `soup.find` selects), `get_bilibili_cover` returns exactly
the string `"https://i0.hdslb.com/cover.jpg"`: it reads the `content`
attribute and strips the trailing `@...` size/format suffix. -/
theorem C1_cover_suffix_stripped (status : Nat) (soup : List Tag) (t : Tag)
    (hs : ¬ (400 ≤ status ∧ status < 600))
    (hf : find_og_image soup = some t)
    (hc : t.content = some "https://i0.hdslb.com/cover.jpg@672w_378h.jpg") :
    get_bilibili_cover (FetchOutcome.response status soup)
      = some "https://i0.hdslb.com/cover.jpg" := by
  rw [get_bilibili_cover_of_ok (body_response_extract hs hf hc (by decide))]
  decide

theorem C1_cover_suffix_stripped_witness :
    get_bilibili_cover (FetchOutcome.response 200
        [⟨"meta", some "og:image",
          some "https://i0.hdslb.com/cover.jpg@672w_378h.jpg"⟩])
      = some "https://i0.hdslb.com/cover.jpg" :=
  C1_cover_suffix_stripped 200
    [⟨"meta", some "og:image",
      some "https://i0.hdslb.com/cover.jpg@672w_378h.jpg"⟩]
    ⟨"meta", some "og:image",
      some "https://i0.hdslb.com/cover.jpg@672w_378h.jpg"⟩
    (by decide) (by decide) rfl

/-- C2: when the matching og:image meta element has a protocol-relative
content value beginning with `//`, `get_bilibili_cover` prefixes the
default scheme and returns `"https:"` concatenated with that value. -/
theorem C2_protocol_relative_scheme (status : Nat) (soup : List Tag)
    (t : Tag)
    (hs : ¬ (400 ≤ status ∧ status < 600))
    (hf : find_og_image soup = some t)
    (hc : t.content = some "//i0.hdslb.com/cover.jpg") :
    get_bilibili_cover (FetchOutcome.response status soup)
      = some "https://i0.hdslb.com/cover.jpg" := by
  rw [get_bilibili_cover_of_ok (body_response_extract hs hf hc (by decide))]
  decide

theorem C2_protocol_relative_scheme_witness :
    get_bilibili_cover (FetchOutcome.response 200
        [⟨"meta", some "og:image", some "//i0.hdslb.com/cover.jpg"⟩])
      = some "https://i0.hdslb.com/cover.jpg" :=
  C2_protocol_relative_scheme 200
    [⟨"meta", some "og:image", some "//i0.hdslb.com/cover.jpg"⟩]
    ⟨"meta", some "og:image", some "//i0.hdslb.com/cover.jpg"⟩
    (by decide) (by decide) rfl

/-- C3: for every fetched page whose HTML contains no meta element with
property `og:image`, `get_bilibili_cover` returns `none`, and the body
does not raise (it completes with `Except.ok none`), so no exception is
propagated to the caller. -/
theorem C3_no_og_image_returns_none (status : Nat) (soup : List Tag)
    (hs : ¬ (400 ≤ status ∧ status < 600))
    (h : ∀ t ∈ soup, ¬ (t.name = "meta" ∧ t.property = some "og:image")) :
    get_bilibili_cover_body (FetchOutcome.response status soup)
        = Except.ok none ∧
      get_bilibili_cover (FetchOutcome.response status soup) = none := by
  have hf : find_og_image soup = none := by
    unfold find_og_image
    apply List.find?_eq_none.mpr
    intro t ht hb
    exact h t ht ((find_og_image_pred t).mp hb)
  constructor
  · simp [get_bilibili_cover_body, raise_for_status_ok hs, hf]
  · simp [get_bilibili_cover, get_bilibili_cover_body,
      raise_for_status_ok hs, hf]

theorem C3_no_og_image_returns_none_witness :
    get_bilibili_cover_body (FetchOutcome.response 200
        [⟨"meta", some "og:title", some "a title"⟩]) = Except.ok none ∧
      get_bilibili_cover (FetchOutcome.response 200
        [⟨"meta", some "og:title", some "a title"⟩]) = none :=
  C3_no_og_image_returns_none 200 _ (by decide) (by decide)

/-- C4: every request outcome that is a network error (connection
failure, DNS failure, timeout) and every HTTP response whose status is
non-success (400..599, e.g. 404 or 500) makes `get_bilibili_cover`
return `none`. -/
theorem C4_network_and_http_errors_return_none :
    (∀ msg : String,
        get_bilibili_cover (FetchOutcome.requestError msg) = none) ∧
    (∀ (status : Nat) (soup : List Tag), 400 ≤ status → status < 600 →
        get_bilibili_cover (FetchOutcome.response status soup) = none) := by
  constructor
  · intro msg
    rfl
  · intro status soup h1 h2
    simp [get_bilibili_cover, get_bilibili_cover_body, raise_for_status,
      h1, h2]

theorem C4_network_and_http_errors_return_none_witness :
    get_bilibili_cover (FetchOutcome.requestError "timeout") = none ∧
      get_bilibili_cover (FetchOutcome.response 404
        [⟨"meta", some "og:image", some "//x.jpg"⟩]) = none :=
  ⟨C4_network_and_http_errors_return_none.1 "timeout",
   C4_network_and_http_errors_return_none.2 404 _ (by decide) (by decide)⟩

/-- C5: for every input outcome, `get_bilibili_cover` terminates and
returns either a string or `none`; every exception the `try` body raises
is caught at the top level and becomes `none`, never a propagated
exception. -/
theorem C5_exceptions_caught_and_total :
    (∀ (o : FetchOutcome) (e : PyError),
        get_bilibili_cover_body o = Except.error e →
        get_bilibili_cover o = none) ∧
    (∀ o : FetchOutcome, get_bilibili_cover o = none ∨
        ∃ s : String, get_bilibili_cover o = some s) := by
  constructor
  · intro o e h
    exact get_bilibili_cover_of_error h
  · intro o
    cases hg : get_bilibili_cover o with
    | none => exact Or.inl rfl
    | some s => exact Or.inr ⟨s, rfl⟩

theorem C5_exceptions_caught_and_total_witness :
    get_bilibili_cover (FetchOutcome.requestError "connection refused")
      = none :=
  C5_exceptions_caught_and_total.1
    (FetchOutcome.requestError "connection refused")
    (PyError.requestException "connection refused") rfl

/-- C6: when the fetched HTML contains more than one og:image meta
element, `get_bilibili_cover` uses the first such element in document
order: for any soup split as `pre ++ t :: post` where no element of
`pre` matches and `t` matches, the returned URL is derived from `t`'s
`content` attribute, regardless of what follows in `post`. -/
theorem C6_first_meta_in_document_order (status : Nat)
    (pre post : List Tag) (t : Tag) (c : String)
    (hs : ¬ (400 ≤ status ∧ status < 600))
    (hpre : ∀ u ∈ pre, ¬ (u.name = "meta" ∧ u.property = some "og:image"))
    (ht : t.name = "meta") (hp : t.property = some "og:image")
    (hc : t.content = some c) (hne : c ≠ "") :
    get_bilibili_cover (FetchOutcome.response status (pre ++ t :: post))
      = some (re_sub_at_dot_star
          (if py_startswith c "//" then "https:" ++ c else c)) :=
  get_bilibili_cover_of_ok
    (body_response_extract hs (find_og_image_append hpre ht hp) hc hne)

theorem C6_first_meta_in_document_order_witness :
    get_bilibili_cover (FetchOutcome.response 200
        ([⟨"meta", some "og:title", some "a title"⟩] ++
          ⟨"meta", some "og:image", some "first.jpg"⟩ ::
            [⟨"meta", some "og:image", some "second.jpg"⟩]))
      = some "first.jpg" := by
  have h := C6_first_meta_in_document_order 200
    [⟨"meta", some "og:title", some "a title"⟩]
    [⟨"meta", some "og:image", some "second.jpg"⟩]
    ⟨"meta", some "og:image", some "first.jpg"⟩ "first.jpg"
    (by decide) (by decide) rfl rfl rfl (by decide)
  rw [h]
  decide

/-- C7: the extraction from fetched content to returned value is
deterministic: two runs of `get_bilibili_cover` on the same fixed
request outcome (same page content) yield identical output. -/
theorem C7_extraction_deterministic (o o' : FetchOutcome) (h : o = o') :
    get_bilibili_cover o = get_bilibili_cover o' := by
  rw [h]

theorem C7_extraction_deterministic_witness :
    get_bilibili_cover (FetchOutcome.response 200
        [⟨"meta", some "og:image", some "//a.jpg"⟩])
      = get_bilibili_cover (FetchOutcome.response 200
        [⟨"meta", some "og:image", some "//a.jpg"⟩]) :=
  C7_extraction_deterministic _ _ rfl

/-- C8: the `__main__` block terminates normally in both the success and
the failure case: the exit code is `0` for every request outcome, and
when `get_bilibili_cover` returns a truthy URL string the block prints
it. -/
theorem C8_main_exits_normally :
    (∀ o : FetchOutcome, (main_block o).2 = 0) ∧
    (∀ (o : FetchOutcome) (url : String),
        get_bilibili_cover o = some url → url ≠ "" →
        url ∈ (main_block o).1) := by
  constructor
  · intro o
    cases hcase : get_bilibili_cover o with
    | none => simp [main_block, hcase]
    | some url =>
      by_cases h : url = "" <;> simp [main_block, hcase, h]
  · intro o url hg hne
    simp [main_block, hg, hne]

theorem C8_main_exits_normally_witness :
    (main_block (FetchOutcome.requestError "timeout")).2 = 0 ∧
      "https://a.jpg" ∈ (main_block (FetchOutcome.response 200
        [⟨"meta", some "og:image", some "https://a.jpg"⟩])).1 :=
  ⟨C8_main_exits_normally.1 _,
   C8_main_exits_normally.2 _ "https://a.jpg" (by decide) (by decide)⟩

/-- C9: when the first matching og:image meta element is present but its
`content` attribute is missing or the empty string, `get_bilibili_cover`
treats it like an absent element and returns `none`. -/
theorem C9_missing_or_empty_content_returns_none (status : Nat)
    (soup : List Tag) (t : Tag)
    (hs : ¬ (400 ≤ status ∧ status < 600))
    (hf : find_og_image soup = some t)
    (hc : t.content = none ∨ t.content = some "") :
    get_bilibili_cover (FetchOutcome.response status soup) = none := by
  cases hc with
  | inl h =>
    simp [get_bilibili_cover, get_bilibili_cover_body,
      raise_for_status_ok hs, hf, h]
  | inr h =>
    simp [get_bilibili_cover, get_bilibili_cover_body,
      raise_for_status_ok hs, hf, h]

theorem C9_missing_or_empty_content_returns_none_witness :
    get_bilibili_cover (FetchOutcome.response 200
        [⟨"meta", some "og:image", none⟩]) = none ∧
      get_bilibili_cover (FetchOutcome.response 200
        [⟨"meta", some "og:image", some ""⟩]) = none :=
  ⟨C9_missing_or_empty_content_returns_none 200
      [⟨"meta", some "og:image", none⟩] ⟨"meta", some "og:image", none⟩
      (by decide) (by decide) (Or.inl rfl),
   C9_missing_or_empty_content_returns_none 200
      [⟨"meta", some "og:image", some ""⟩] ⟨"meta", some "og:image", some ""⟩
      (by decide) (by decide) (Or.inr rfl)⟩

/-- C10: every non-`none` string returned by `get_bilibili_cover`
contains no `'@'` character; moreover, on any newline-free input (such
as a URL) the cleanup `re.sub(r'@.*', '', s)` removes everything from
the first `'@'` to the end of the string, so an `'@'` anywhere in the
URL truncates it there. -/
theorem C10_result_contains_no_at :
    (∀ (o : FetchOutcome) (s : String),
        get_bilibili_cover o = some s → '@' ∉ s.data) ∧
    (∀ s : String, '\n' ∉ s.data →
        (re_sub_at_dot_star s).data
          = s.data.takeWhile (fun c => c != '@')) := by
  constructor
  · intro o s h
    obtain ⟨u, rfl⟩ := get_bilibili_cover_some_shape h
    exact re_sub_at_dot_star_no_at u
  · intro s h
    exact subAtStar_eq_takeWhile h

theorem C10_result_contains_no_at_witness :
    '@' ∉ ("https://i1.hdslb.com/pic.jpg" : String).data ∧
      (re_sub_at_dot_star "https://a@b.jpg").data
        = ("https://a@b.jpg" : String).data.takeWhile (fun c => c != '@') :=
  ⟨C10_result_contains_no_at.1
      (FetchOutcome.response 200
        [⟨"meta", some "og:image", some "https://i1.hdslb.com/pic.jpg@55.webp"⟩])
      "https://i1.hdslb.com/pic.jpg" (by decide),
   C10_result_contains_no_at.2 "https://a@b.jpg" (by decide)⟩
